import Mathlib

/-!
Verification of the pennylane repository slice: the QAOA cycle utilities
(src/pennylane/qaoa/cycle.py) and the QNode / quantum-tape construction and
differentiation-method selection layer, whose behaviour is specified in spec.md
and pinned by the tests in src/tests/beta/tapes/test_qnode.py.

Numeric values are modelled as rationals; the external numpy logarithm is an
abstract parameter of the construction, so every statement about coefficients
is relative to that function.
-/

/-! ## Part 1: graph model and the cycle.py functions -/

/-- An edge record of a directed graph, as produced by the networkx iteration
over edges with data: source node, target node, and the optional value stored
under the "weight" key of the edge-data dictionary (absent key is `none`). -/
structure EdgeData where
  src : Nat
  dst : Nat
  weight : Option ℚ
deriving DecidableEq, Repr

/-- A directed graph presented, as networkx does, by its deterministic edge
iteration order. `edges` plays the role of `graph.edges(data=True)`. -/
structure Graph where
  edges : List EdgeData
deriving DecidableEq, Repr

/-- The iteration `graph.edges` without data: the (source, target) pairs in the
same order as the data-bearing iteration. -/
def Graph.edgeList (g : Graph) : List (Nat × Nat) :=
  g.edges.map (fun ed => (ed.src, ed.dst))

/-- Lookup in an association list where, as in a python dict comprehension,
a later binding of the same key overwrites an earlier one: the list is searched
from its end. -/
def dictFind {α β : Type} [DecidableEq α] (k : α) : List (α × β) → Option β
  | [] => none
  | (a, b) :: rest => if k = a then some b else dictFind k rest

/-- Python dict lookup `d[k]` for a dict built from the given binding list. -/
def dictLookup {α β : Type} [DecidableEq α] (l : List (α × β)) (k : α) : Option β :=
  dictFind k l.reverse

/-- Embedding of `edges_to_wires` from src/pennylane/qaoa/cycle.py: the dict
comprehension over `enumerate(graph.edges)` mapping each edge to its index. -/
def edges_to_wires (g : Graph) : List ((Nat × Nat) × Nat) :=
  g.edgeList.enum.map (fun p => (p.2, p.1))

/-- Embedding of `wires_to_edges` from src/pennylane/qaoa/cycle.py: the dict
comprehension over `enumerate(graph.edges)` mapping each index to its edge. -/
def wires_to_edges (g : Graph) : List (Nat × (Nat × Nat)) :=
  g.edgeList.enum.map (fun p => (p.1, p.2))

/-- The two python exception classes raised by `loss_hamiltonian`. -/
inductive PyError : Type
  | valueError (msg : String)
  | keyError (msg : String)
deriving DecidableEq, Repr

/-- An observable term of the constructed Hamiltonian: a Pauli-Z on one wire,
as built by `qml.PauliZ(wires=...)` in `loss_hamiltonian`. -/
inductive Obs : Type
  | PauliZ (wire : Nat)
deriving DecidableEq, Repr

/-- The result of `qml.Hamiltonian(coeffs, ops)`: the parallel lists of
coefficients and observables. -/
structure Hamiltonian where
  coeffs : List ℚ
  ops : List Obs
deriving DecidableEq, Repr

/-- String rendering of an edge tuple as python prints it, used in the
KeyError message of `loss_hamiltonian`. -/
def edgeStr (e : Nat × Nat) : String :=
  "(" ++ toString e.1 ++ ", " ++ toString e.2 ++ ")"

/-- The loop body of `loss_hamiltonian`: walk the data-bearing edges in
iteration order; for each edge first check for a self-loop (ValueError), then
look up the weight key (KeyError naming the edge when absent), then append
`log weight` to the coefficients and a Pauli-Z on the wire
`edges_to_qubits[edge]` to the observables. `log` is the abstract stand-in for
`np.log`. -/
def lossHamiltonianGo (log : ℚ → ℚ) (e2q : List ((Nat × Nat) × Nat)) :
    List EdgeData → Except PyError (List ℚ × List Obs)
  | [] => Except.ok ([], [])
  | ed :: rest =>
    if ed.src = ed.dst then
      Except.error (PyError.valueError "Graph contains self-loops")
    else
      match ed.weight with
      | none =>
        Except.error (PyError.keyError
          ("Edge " ++ edgeStr (ed.src, ed.dst) ++ " does not contain weight data"))
      | some w =>
        match dictLookup e2q (ed.src, ed.dst) with
        | none => Except.error (PyError.keyError (edgeStr (ed.src, ed.dst)))
        | some q =>
          match lossHamiltonianGo log e2q rest with
          | Except.error e => Except.error e
          | Except.ok (cs, os) => Except.ok (log w :: cs, Obs.PauliZ q :: os)

/-- Embedding of `loss_hamiltonian` from src/pennylane/qaoa/cycle.py,
parametric in the external logarithm `log` standing for `np.log`. -/
def loss_hamiltonian (log : ℚ → ℚ) (g : Graph) : Except PyError Hamiltonian :=
  match lossHamiltonianGo log (edges_to_wires g) g.edges with
  | Except.error e => Except.error e
  | Except.ok (cs, os) => Except.ok ⟨cs, os⟩

/-- An edge record on which `loss_hamiltonian` raises: a self-loop or a
missing weight key. -/
def isBad (ed : EdgeData) : Bool :=
  ed.src == ed.dst || ed.weight.isNone

/-- Abbreviation for the coefficient produced for a (valid) edge record. -/
def coeffOf (log : ℚ → ℚ) (ed : EdgeData) : ℚ :=
  log (ed.weight.getD 0)

/-- Abbreviation for the observable produced for a (valid) edge record. -/
def obsOf (e2q : List ((Nat × Nat) × Nat)) (ed : EdgeData) : Obs :=
  Obs.PauliZ ((dictLookup e2q (ed.src, ed.dst)).getD 0)

/-! ## Part 2: QNode model — differentiation-method selection

The QNode implementation itself (pennylane/beta/tapes/qnode.py) is not part of
the src slice; only its unit tests are. The definitions below are therefore
modelled from the spec (sections 4.2 and 4.3), with concrete return values and
error messages pinned by the assertions of
src/tests/beta/tapes/test_qnode.py. -/

/-- The device capability set queried by the selector: the optional
`passthru_interface` capability, the boolean `provides_jacobian` capability,
and the declared execution `model` ("qubit", "cv", or something else). -/
structure Capabilities where
  passthru : Option String
  provides_jacobian : Bool
  model : String
deriving DecidableEq, Repr

/-- The two tape kinds the selector can choose between. -/
inductive TapeKind : Type
  | quantumTape
  | qubitParamShiftTape
deriving DecidableEq, Repr

/-- The QuantumFunctionError exception, carrying its message. -/
structure QuantumFunctionError where
  msg : String
deriving DecidableEq, Repr

/-- A resolved diff-method descriptor: the (tape kind, interface, method)
triple of the spec, together with the warnings emitted while selecting it. -/
structure Selected where
  tape : TapeKind
  interface : Option String
  method : String
  warnings : List String
deriving DecidableEq, Repr

/-- Modelled from the spec: `QNode._validate_backprop_method`, absent from
src. When the device declares no `passthru_interface` capability, or declares
one different from the requested interface, it fails with a
QuantumFunctionError; otherwise it returns the base tape kind with method
"backprop". The returned interface component is `none`, as pinned by
TestValidation.test_validate_backprop_method (`assert interface == None`) and
TestValidation.test_best_method (`res == (QuantumTape, None, "backprop")`). -/
def validateBackpropMethod (dev : Capabilities) (interface : Option String) :
    Except QuantumFunctionError Selected :=
  match dev.passthru with
  | none =>
    Except.error
      ⟨"The device does not support native computations with autodifferentiation frameworks"⟩
  | some backpropInterface =>
    if interface = some backpropInterface then
      Except.ok ⟨TapeKind.quantumTape, none, "backprop", []⟩
    else
      Except.error
        ⟨"Device only supports diff_method backprop when using the "
          ++ backpropInterface ++ " interface"⟩

/-- Modelled from the spec: `QNode._validate_device_method`, absent from src.
When the device does not declare `provides_jacobian`, it fails with a
QuantumFunctionError; otherwise it returns the base tape kind, the requested
interface, and method "device" (TestValidation.test_validate_device_method). -/
def validateDeviceMethod (dev : Capabilities) (interface : Option String) :
    Except QuantumFunctionError Selected :=
  if dev.provides_jacobian then
    Except.ok ⟨TapeKind.quantumTape, interface, "device", []⟩
  else
    Except.error
      ⟨"The device does not provide a native method for computing the jacobian"⟩

/-- Modelled from the spec: `QNode._get_parameter_shift_method`, absent from
src. Qubit-model devices get the parameter-shift tape with method "analytic";
continuous-variable devices fall back to the base tape with method "numeric",
emitting the warning about the unimplemented CV parameter-shift rule; any
other model fails with a QuantumFunctionError
(TestValidation.test_get_parameter_shift_method). -/
def getParameterShiftMethod (dev : Capabilities) (interface : Option String) :
    Except QuantumFunctionError Selected :=
  if dev.model = "qubit" then
    Except.ok ⟨TapeKind.qubitParamShiftTape, interface, "analytic", []⟩
  else if dev.model = "cv" then
    Except.ok ⟨TapeKind.quantumTape, interface, "numeric",
      ["The CV parameter-shift rule not yet implemented; falling back to finite differences"]⟩
  else
    Except.error ⟨"The device does not support the parameter-shift rule"⟩

/-- Modelled from the spec (section 4.2 priority order):
`QNode._get_best_method`, absent from src. Try backprop, then device, then
parameter-shift, and finally fall back to finite differences
(TestValidation.test_best_method). -/
def getBestMethod (dev : Capabilities) (interface : Option String) :
    Except QuantumFunctionError Selected :=
  match validateBackpropMethod dev interface with
  | Except.ok s => Except.ok s
  | Except.error _ =>
    match validateDeviceMethod dev interface with
    | Except.ok s => Except.ok s
    | Except.error _ =>
      match getParameterShiftMethod dev interface with
      | Except.ok s => Except.ok s
      | Except.error _ =>
        Except.ok ⟨TapeKind.quantumTape, interface, "numeric", []⟩

/-- Modelled from the spec: the diff_method dispatch performed at QNode
construction, absent from src. Recognized names are "best", "backprop",
"device", "parameter-shift" and "finite-diff"; anything else fails with a
QuantumFunctionError naming the method
(TestValidation.test_unknown_diff_method). -/
def getTapeAndMethod (dev : Capabilities) (interface : Option String)
    (diffMethod : String) : Except QuantumFunctionError Selected :=
  if diffMethod = "best" then getBestMethod dev interface
  else if diffMethod = "backprop" then validateBackpropMethod dev interface
  else if diffMethod = "device" then validateDeviceMethod dev interface
  else if diffMethod = "parameter-shift" then getParameterShiftMethod dev interface
  else if diffMethod = "finite-diff" then
    Except.ok ⟨TapeKind.quantumTape, interface, "numeric", []⟩
  else
    Except.error ⟨"Differentiation method " ++ diffMethod ++ " not recognized"⟩

/-! ## Part 3: QNode model — tape recording and calls -/

/-- A Pauli observable label. -/
inductive Pauli : Type
  | X
  | Y
  | Z
deriving DecidableEq, Repr

/-- A measurement process: its kind ("expval", "var", "sample" or "probs"),
the measured Pauli observable and its wire. -/
structure Measurement where
  kind : String
  obs : Pauli
  wire : Nat
deriving DecidableEq, Repr

/-- A queued gate-like operation: name, numeric parameters, target wires. -/
structure Operation where
  name : String
  params : List ℚ
  wires : List Nat
deriving DecidableEq, Repr

/-- A value in the declared return sequence of a construction function:
either a measurement or a non-measurement value such as a plain number. -/
inductive ReturnedValue : Type
  | meas (m : Measurement)
  | value (n : ℚ)
deriving DecidableEq, Repr

/-- Whether a returned value is a measurement. -/
def ReturnedValue.isMeas : ReturnedValue → Bool
  | ReturnedValue.meas _ => true
  | ReturnedValue.value _ => false

/-- Modelled from the spec (section 4.1): the observable effect of executing a
construction function under the queuing context — the operations and the
measurements queued during the call, each in instantiation order, together
with the declared return sequence. -/
structure ConstructionResult where
  queuedOps : List Operation
  queuedMeasurements : List Measurement
  returned : List ReturnedValue
deriving DecidableEq, Repr

/-- A recorded quantum tape: its ordered operations and measurements, plus a
freshness id modelling object identity (each recording uses a new id). -/
structure Tape where
  tid : Nat
  operations : List Operation
  measurements : List Measurement
deriving DecidableEq, Repr

/-- The measurement carried by a returned value, when it is one. -/
def ReturnedValue.getMeas : ReturnedValue → Option Measurement
  | ReturnedValue.meas m => some m
  | ReturnedValue.value _ => none

/-- The sequence of measurements in a declared return sequence, in declared
order. -/
def returnedMeasurements (cr : ConstructionResult) : List Measurement :=
  cr.returned.filterMap ReturnedValue.getMeas

/-- Modelled from the spec (section 4.1): recording a tape from the result of
a construction-function call. Fails with a QuantumFunctionError when a
returned value is not a measurement
(TestTapeConstruction.test_returning_non_measurements), then with a
QuantumFunctionError when the declared measurement order differs from the
queued order (TestTapeConstruction.test_inconsistent_measurement_order);
otherwise the tape holds the queued operations and measurements in order. -/
def recordTape (cr : ConstructionResult) (tid : Nat) :
    Except QuantumFunctionError Tape :=
  if cr.returned.all ReturnedValue.isMeas then
    if returnedMeasurements cr = cr.queuedMeasurements then
      Except.ok ⟨tid, cr.queuedOps, cr.queuedMeasurements⟩
    else
      Except.error ⟨"All measurements must be returned in the order they are measured"⟩
  else
    Except.error
      ⟨"A quantum function must return either a single measured observable or a nonempty sequence of measured observables"⟩

/-- Modelled from the spec (section 6, device boundary): a device execution
entry point, a function from the dispatched operation and measurement
sequences to the ordered numeric result vector. -/
def Device : Type :=
  List Operation → List Measurement → List ℚ

/-- The mutable state of a QNode across calls: the freshness counter supplying
tape ids and the most recently produced tape. -/
structure QNodeState where
  counter : Nat
  qtape : Option Tape
deriving DecidableEq, Repr

/-- Modelled from the spec (section 4.3): one QNode call — run the
construction function on the arguments, record a structurally fresh tape,
store it, and execute it against the bound device. A failed recording aborts
the call and leaves the previous state to the caller. -/
def qnodeCall {Args : Type} (func : Args → ConstructionResult) (dev : Device)
    (st : QNodeState) (args : Args) :
    Except QuantumFunctionError (List ℚ × QNodeState) :=
  match recordTape (func args) st.counter with
  | Except.error e => Except.error e
  | Except.ok t => Except.ok (dev t.operations t.measurements, ⟨st.counter + 1, some t⟩)

/-! ## Part 4: concrete instances used by witnesses and counterexamples -/

/-- A two-edge loop-free weighted graph. -/
def gC7 : Graph := ⟨[⟨0, 1, some 1⟩, ⟨1, 2, some 2⟩]⟩

/-- A graph whose first edge lacks weight data and whose second edge is a
self-loop. -/
def gC8ce : Graph := ⟨[⟨0, 1, none⟩, ⟨2, 2, some 1⟩]⟩

/-- A graph whose only edge is a weighted self-loop. -/
def gC8w : Graph := ⟨[⟨3, 3, some 1⟩]⟩

/-- A two-edge directed graph with distinct edges. -/
def gC9 : Graph := ⟨[⟨0, 1, some 1⟩, ⟨1, 0, some 1⟩]⟩

/-- A graph whose first invalid edge, in iteration order, is both a self-loop
and missing its weight, followed by another invalid edge. -/
def gC10 : Graph := ⟨[⟨0, 1, some 1⟩, ⟨3, 3, none⟩, ⟨4, 5, none⟩]⟩

/-- The first invalid edge of `gC10`. -/
def edC10 : EdgeData := ⟨3, 3, none⟩

/-- A device capability set declaring a passthrough interface and a native
jacobian. -/
def devC1 : Capabilities := ⟨some "tf", true, "qubit"⟩

/-- A continuous-variable device with no passthrough and no native
jacobian. -/
def devC4 : Capabilities := ⟨none, false, "cv"⟩

/-- A plain qubit device with no passthrough and no native jacobian. -/
def devC5 : Capabilities := ⟨none, false, "qubit"⟩

/-- An expectation measurement of Pauli-Z on wire 0. -/
def m1W : Measurement := ⟨"expval", Pauli.Z, 0⟩

/-- An expectation measurement of Pauli-X on wire 1. -/
def m2W : Measurement := ⟨"expval", Pauli.X, 1⟩

/-- A construction outcome that queues measurements [m1, m2] but declares
them in the swapped order [m2, m1]. -/
def crC2 : ConstructionResult :=
  ⟨[⟨"RX", [5], [0]⟩, ⟨"RY", [1], [1]⟩, ⟨"CNOT", [], [0, 1]⟩],
    [m1W, m2W], [ReturnedValue.meas m2W, ReturnedValue.meas m1W]⟩

/-- A construction function that declares a plain number as its return. -/
def funcC6 : Unit → ConstructionResult :=
  fun _ => ⟨[⟨"RX", [5], [0]⟩], [], [ReturnedValue.value 5]⟩

/-- A trivial device for the non-measurement witness. -/
def devFnC6 : Device := fun _ _ => []

/-- A well-formed construction outcome: one operation, one measurement,
declared in queued order. -/
def crC3 : ConstructionResult := ⟨[⟨"RX", [1], [0]⟩], [m1W], [ReturnedValue.meas m1W]⟩

/-- A pure construction function returning `crC3` on every call. -/
def funcC3 : Unit → ConstructionResult := fun _ => crC3

/-- A deterministic device returning the constant result vector [1]. -/
def devFnC3 : Device := fun _ _ => [1]

/-! ## Helper lemmas: python-dict lookup -/

theorem dictFind_isSome_of_mem_keys {α β : Type} [DecidableEq α] (k : α)
    (l : List (α × β)) (h : k ∈ l.map Prod.fst) : (dictFind k l).isSome := by
  induction l with
  | nil => simp at h
  | cons a t ih =>
    rcases a with ⟨a1, a2⟩
    by_cases hk : k = a1
    · simp [dictFind, hk]
    · simp [dictFind, hk]
      apply ih
      simp at h
      rcases h with h | h
      · exact absurd h hk
      · simpa using h

theorem dictFind_eq_some_of_mem {α β : Type} [DecidableEq α] (k : α) (v : β)
    (l : List (α × β)) (hnd : (l.map Prod.fst).Nodup) (h : (k, v) ∈ l) :
    dictFind k l = some v := by
  induction l with
  | nil => simp at h
  | cons a t ih =>
    rcases a with ⟨a1, a2⟩
    simp at hnd
    rcases List.mem_cons.mp h with heq | hmem
    · cases heq
      simp [dictFind]
    · have hk : k ≠ a1 := by
        intro hk
        subst hk
        exact hnd.1 v (by simpa using hmem)
      simp [dictFind, hk]
      exact ih hnd.2 hmem

theorem dictLookup_isSome_of_mem_keys {α β : Type} [DecidableEq α]
    (l : List (α × β)) (k : α) (h : k ∈ l.map Prod.fst) :
    (dictLookup l k).isSome := by
  apply dictFind_isSome_of_mem_keys
  rw [List.map_reverse]
  simpa using h

theorem dictLookup_eq_some_of_mem {α β : Type} [DecidableEq α]
    (l : List (α × β)) (k : α) (v : β) (hnd : (l.map Prod.fst).Nodup)
    (h : (k, v) ∈ l) : dictLookup l k = some v := by
  apply dictFind_eq_some_of_mem
  · rw [List.map_reverse]
    exact List.nodup_reverse.mpr hnd
  · simpa using h

/-! ## Helper lemmas: the edge/wire maps -/

theorem edges_to_wires_keys (g : Graph) :
    (edges_to_wires g).map Prod.fst = g.edgeList := by
  unfold edges_to_wires
  rw [List.map_map]
  have hc : (Prod.fst ∘ fun p : Nat × (Nat × Nat) => (p.2, p.1)) = Prod.snd := rfl
  rw [hc]
  exact List.enumFrom_map_snd 0 g.edgeList

theorem wires_to_edges_eq_enum (g : Graph) :
    wires_to_edges g = g.edgeList.enum := by
  unfold wires_to_edges
  have hc : (fun p : Nat × (Nat × Nat) => (p.1, p.2)) = id := by
    funext p
    rfl
  rw [hc, List.map_id]

theorem mem_edges_to_wires_iff (g : Graph) (e : Nat × Nat) (w : Nat) :
    (e, w) ∈ edges_to_wires g ↔ (w, e) ∈ g.edgeList.enum := by
  unfold edges_to_wires
  constructor
  · intro h
    rcases List.mem_map.mp h with ⟨p, hp, heq⟩
    rcases p with ⟨i, x⟩
    simp at heq
    rcases heq with ⟨h1, h2⟩
    subst h1; subst h2
    exact hp
  · intro h
    exact List.mem_map.mpr ⟨(w, e), h, rfl⟩

theorem e2w_lookup_isSome (g : Graph) (ed : EdgeData) (h : ed ∈ g.edges) :
    (dictLookup (edges_to_wires g) (ed.src, ed.dst)).isSome := by
  apply dictLookup_isSome_of_mem_keys
  rw [edges_to_wires_keys]
  exact List.mem_map_of_mem (fun x => (x.src, x.dst)) h

theorem mem_enum_of_getElem {α : Type} (l : List α) (i : Nat) (hi : i < l.length) :
    (i, l[i]) ∈ l.enum := by
  have h2 : i < l.enum.length := by simpa using hi
  have h3 : l.enum.get ⟨i, h2⟩ = (i, l[i]) := by
    simp [List.enum_eq_enumFrom]
  rw [← h3]
  exact List.get_mem l.enum i h2

/-! ## Helper lemmas: loss_hamiltonian -/

theorem isBad_false_iff (ed : EdgeData) :
    isBad ed = false ↔ ed.src ≠ ed.dst ∧ ed.weight.isSome := by
  unfold isBad
  rw [Bool.or_eq_false_iff]
  constructor
  · rintro ⟨h1, h2⟩
    exact ⟨by simpa using h1, by simpa [Option.isNone_eq_false_iff] using h2⟩
  · rintro ⟨h1, h2⟩
    exact ⟨by simpa using h1, by simpa [Option.isNone_eq_false_iff] using h2⟩

theorem lossHamiltonianGo_ok (log : ℚ → ℚ) (e2q : List ((Nat × Nat) × Nat))
    (l : List EdgeData)
    (h1 : ∀ ed ∈ l, (dictLookup e2q (ed.src, ed.dst)).isSome)
    (h2 : ∀ ed ∈ l, isBad ed = false) :
    lossHamiltonianGo log e2q l = Except.ok (l.map (coeffOf log), l.map (obsOf e2q)) := by
  induction l with
  | nil => rfl
  | cons a t ih =>
    rcases (isBad_false_iff a).mp (h2 a (List.mem_cons_self a t)) with ⟨hne, hws⟩
    rcases Option.isSome_iff_exists.mp hws with ⟨w, hw⟩
    rcases Option.isSome_iff_exists.mp (h1 a (List.mem_cons_self a t)) with ⟨q, hq⟩
    have iht := ih (fun ed hed => h1 ed (List.mem_cons_of_mem a hed))
      (fun ed hed => h2 ed (List.mem_cons_of_mem a hed))
    simp only [lossHamiltonianGo, if_neg hne, hw, hq, iht]
    simp [coeffOf, obsOf, hw, hq]

theorem lossHamiltonianGo_err (log : ℚ → ℚ) (e2q : List ((Nat × Nat) × Nat))
    (l : List EdgeData) (ed : EdgeData)
    (h1 : ∀ e ∈ l, (dictLookup e2q (e.src, e.dst)).isSome)
    (h : l.find? isBad = some ed) :
    lossHamiltonianGo log e2q l =
      Except.error
        (if ed.src = ed.dst then PyError.valueError "Graph contains self-loops"
         else PyError.keyError
           ("Edge " ++ edgeStr (ed.src, ed.dst) ++ " does not contain weight data")) := by
  induction l with
  | nil => simp at h
  | cons a t ih =>
    by_cases hb : isBad a = true
    · rw [List.find?_cons_of_pos _ hb] at h
      have ha : a = ed := by injection h
      subst ha
      by_cases hloop : a.src = a.dst
      · simp only [lossHamiltonianGo, if_pos hloop]
      · have hwn : a.weight = none := by
          unfold isBad at hb
          rcases Bool.or_eq_true_iff.mp hb with h' | h'
          · exact absurd (by simpa using h') hloop
          · simpa [Option.isNone_iff_eq_none] using h'
        simp only [lossHamiltonianGo, if_neg hloop, hwn]
    · have hb' : isBad a = false := by simpa using hb
      rw [List.find?_cons_of_neg _ (by simpa using hb)] at h
      rcases (isBad_false_iff a).mp hb' with ⟨hne, hws⟩
      rcases Option.isSome_iff_exists.mp hws with ⟨w, hw⟩
      rcases Option.isSome_iff_exists.mp (h1 a (List.mem_cons_self a t)) with ⟨q, hq⟩
      have iht := ih (fun e he => h1 e (List.mem_cons_of_mem a he)) h
      simp only [lossHamiltonianGo, if_neg hne, hw, hq, iht]

theorem loss_hamiltonian_ok_eq (log : ℚ → ℚ) (g : Graph)
    (h : ∀ ed ∈ g.edges, isBad ed = false) :
    loss_hamiltonian log g =
      Except.ok ⟨g.edges.map (coeffOf log), g.edges.map (obsOf (edges_to_wires g))⟩ := by
  unfold loss_hamiltonian
  rw [lossHamiltonianGo_ok log _ g.edges (fun ed hed => e2w_lookup_isSome g ed hed) h]

theorem loss_hamiltonian_err_eq (log : ℚ → ℚ) (g : Graph) (ed : EdgeData)
    (h : g.edges.find? isBad = some ed) :
    loss_hamiltonian log g =
      Except.error
        (if ed.src = ed.dst then PyError.valueError "Graph contains self-loops"
         else PyError.keyError
           ("Edge " ++ edgeStr (ed.src, ed.dst) ++ " does not contain weight data")) := by
  unfold loss_hamiltonian
  rw [lossHamiltonianGo_err log _ g.edges ed (fun e he => e2w_lookup_isSome g e he) h]

/-! ## Claim theorems: cycle.py -/

/-- C7: for every graph without self-loops in which every edge carries a
positive weight, `loss_hamiltonian` succeeds and returns a Hamiltonian with
exactly one term per edge, where the i-th coefficient is the logarithm of the
i-th edge weight and the i-th observable is a single-wire Pauli-Z on the wire
assigned to that edge by `edges_to_wires`. -/
theorem loss_hamiltonian_one_term_per_edge (log : ℚ → ℚ) (g : Graph)
    (h : ∀ ed ∈ g.edges, ed.src ≠ ed.dst ∧ ed.weight.isSome ∧ 0 < ed.weight.getD 0) :
    ∃ H, loss_hamiltonian log g = Except.ok H ∧
      H.coeffs.length = g.edges.length ∧
      H.ops.length = g.edges.length ∧
      ∀ i, i < g.edges.length →
        ∃ ed w q, g.edges[i]? = some ed ∧ ed.weight = some w ∧ 0 < w ∧
          H.coeffs[i]? = some (log w) ∧
          dictLookup (edges_to_wires g) (ed.src, ed.dst) = some q ∧
          H.ops[i]? = some (Obs.PauliZ q) := by
  have hgood : ∀ ed ∈ g.edges, isBad ed = false := fun ed hed =>
    (isBad_false_iff ed).mpr ⟨(h ed hed).1, (h ed hed).2.1⟩
  refine ⟨_, loss_hamiltonian_ok_eq log g hgood, by simp, by simp, ?_⟩
  intro i hi
  have hig : g.edges[i]? = some g.edges[i] := List.getElem?_eq_getElem hi
  have hmem : g.edges[i] ∈ g.edges := List.getElem_mem hi
  rcases Option.isSome_iff_exists.mp (h _ hmem).2.1 with ⟨w, hw⟩
  rcases Option.isSome_iff_exists.mp (e2w_lookup_isSome g _ hmem) with ⟨q, hq⟩
  have hpos : 0 < w := by
    have hp := (h _ hmem).2.2
    rwa [hw] at hp
  refine ⟨g.edges[i], w, q, hig, hw, hpos, ?_, hq, ?_⟩
  · rw [List.getElem?_map, hig]
    simp [coeffOf, hw]
  · rw [List.getElem?_map, hig]
    simp [obsOf, hq]

/-- Witness for C7 at a concrete two-edge graph with positive weights. -/
theorem loss_hamiltonian_one_term_per_edge_witness :
    (∀ ed ∈ gC7.edges, ed.src ≠ ed.dst ∧ ed.weight.isSome ∧ 0 < ed.weight.getD 0) ∧
    (∃ H, loss_hamiltonian id gC7 = Except.ok H ∧
      H.coeffs.length = gC7.edges.length ∧
      H.ops.length = gC7.edges.length ∧
      ∀ i, i < gC7.edges.length →
        ∃ ed w q, gC7.edges[i]? = some ed ∧ ed.weight = some w ∧ 0 < w ∧
          H.coeffs[i]? = some (id w) ∧
          dictLookup (edges_to_wires gC7) (ed.src, ed.dst) = some q ∧
          H.ops[i]? = some (Obs.PauliZ q)) :=
  ⟨by decide, loss_hamiltonian_one_term_per_edge id gC7 (by decide)⟩

/-- Counterexample to C8 as stated: `gC8ce` contains a self-loop, yet
`loss_hamiltonian` fails with a KeyError about the earlier weightless edge,
not with a ValueError, because validation stops at the first invalid edge in
iteration order. -/
theorem loss_hamiltonian_valueError_counterexample :
    (∃ ed ∈ gC8ce.edges, ed.src = ed.dst) ∧
    loss_hamiltonian id gC8ce =
      Except.error (PyError.keyError "Edge (0, 1) does not contain weight data") ∧
    (∀ msg, loss_hamiltonian id gC8ce ≠ Except.error (PyError.valueError msg)) := by
  refine ⟨⟨⟨2, 2, some 1⟩, by decide, rfl⟩, rfl, ?_⟩
  intro msg hmsg
  rw [show loss_hamiltonian id gC8ce =
    Except.error (PyError.keyError "Edge (0, 1) does not contain weight data") from rfl] at hmsg
  simp at hmsg

/-- C8 (amended): `loss_hamiltonian` succeeds exactly when no edge is invalid;
it fails with ValueError exactly when the first invalid edge in iteration
order is a self-loop; it fails with KeyError exactly when the first invalid
edge is loop-free but lacks weight data, and that KeyError message names the
offending edge. -/
theorem loss_hamiltonian_error_classification (log : ℚ → ℚ) (g : Graph) :
    ((∃ H, loss_hamiltonian log g = Except.ok H) ↔ g.edges.find? isBad = none) ∧
    ((∃ msg, loss_hamiltonian log g = Except.error (PyError.valueError msg)) ↔
      (∃ ed, g.edges.find? isBad = some ed ∧ ed.src = ed.dst)) ∧
    ((∃ msg, loss_hamiltonian log g = Except.error (PyError.keyError msg)) ↔
      (∃ ed, g.edges.find? isBad = some ed ∧ ed.src ≠ ed.dst)) ∧
    (∀ ed, g.edges.find? isBad = some ed → ed.src ≠ ed.dst →
      loss_hamiltonian log g = Except.error (PyError.keyError
        ("Edge " ++ edgeStr (ed.src, ed.dst) ++ " does not contain weight data"))) := by
  rcases hfind : g.edges.find? isBad with _ | ed
  · have hgood : ∀ ed ∈ g.edges, isBad ed = false := by
      intro ed hed
      simpa using List.find?_eq_none.mp hfind ed hed
    have hok := loss_hamiltonian_ok_eq log g hgood
    refine ⟨⟨fun _ => rfl, fun _ => ⟨_, hok⟩⟩, ?_, ?_, ?_⟩
    · constructor
      · rintro ⟨msg, hmsg⟩
        rw [hok] at hmsg
        simp at hmsg
      · rintro ⟨ed, hed, _⟩
        simp at hed
    · constructor
      · rintro ⟨msg, hmsg⟩
        rw [hok] at hmsg
        simp at hmsg
      · rintro ⟨ed, hed, _⟩
        simp at hed
    · intro ed hed
      simp at hed
  · have herr := loss_hamiltonian_err_eq log g ed hfind
    by_cases hloop : ed.src = ed.dst
    · rw [if_pos hloop] at herr
      refine ⟨?_, ?_, ?_, ?_⟩
      · constructor
        · rintro ⟨H, hH⟩
          rw [herr] at hH
          simp at hH
        · intro hnone
          simp at hnone
      · exact ⟨fun _ => ⟨ed, rfl, hloop⟩, fun _ => ⟨_, herr⟩⟩
      · constructor
        · rintro ⟨msg, hmsg⟩
          rw [herr] at hmsg
          simp at hmsg
        · rintro ⟨ed', hed', hne⟩
          injection hed' with hed''
          exact absurd (hed'' ▸ hloop) hne
      · intro ed' hed' hne
        injection hed' with hed''
        exact absurd (hed'' ▸ hloop) hne
    · rw [if_neg hloop] at herr
      refine ⟨?_, ?_, ?_, ?_⟩
      · constructor
        · rintro ⟨H, hH⟩
          rw [herr] at hH
          simp at hH
        · intro hnone
          simp at hnone
      · constructor
        · rintro ⟨msg, hmsg⟩
          rw [herr] at hmsg
          simp at hmsg
        · rintro ⟨ed', hed', hl⟩
          injection hed' with hed''
          exact absurd (hed'' ▸ hl) hloop
      · exact ⟨fun _ => ⟨ed, rfl, hloop⟩, fun _ => ⟨_, herr⟩⟩
      · intro ed' hed' hne
        injection hed' with hed''
        rw [← hed'']
        exact herr

/-- Witness for the amended C8 at a one-edge graph whose edge is a self-loop:
the ValueError case of the classification. -/
theorem loss_hamiltonian_error_classification_witness :
    (∃ ed, gC8w.edges.find? isBad = some ed ∧ ed.src = ed.dst) ∧
    (∃ msg, loss_hamiltonian id gC8w = Except.error (PyError.valueError msg)) :=
  ⟨⟨⟨3, 3, some 1⟩, by decide, rfl⟩,
    (loss_hamiltonian_error_classification id gC8w).2.1.mpr ⟨⟨3, 3, some 1⟩, by decide, rfl⟩⟩

/-- C10: `loss_hamiltonian` validates edges in iteration order and raises on
the first invalid edge; the self-loop check precedes the weight lookup, so an
edge that is both a self-loop and weightless raises the ValueError, and a
loop-free weightless first-invalid edge raises the KeyError naming that very
edge, never an error about a later edge. -/
theorem loss_hamiltonian_first_invalid_edge (log : ℚ → ℚ) (g : Graph) (ed : EdgeData)
    (h : g.edges.find? isBad = some ed) :
    (ed.src = ed.dst →
      loss_hamiltonian log g = Except.error (PyError.valueError "Graph contains self-loops")) ∧
    (ed.src ≠ ed.dst →
      loss_hamiltonian log g = Except.error (PyError.keyError
        ("Edge " ++ edgeStr (ed.src, ed.dst) ++ " does not contain weight data"))) := by
  have herr := loss_hamiltonian_err_eq log g ed h
  constructor
  · intro hl
    rwa [if_pos hl] at herr
  · intro hl
    rwa [if_neg hl] at herr

/-- Witness for C10 at a graph whose first invalid edge is both a self-loop
and weightless: the ValueError is raised. -/
theorem loss_hamiltonian_first_invalid_edge_witness :
    gC10.edges.find? isBad = some edC10 ∧
    ((edC10.src = edC10.dst →
      loss_hamiltonian id gC10 = Except.error (PyError.valueError "Graph contains self-loops")) ∧
    (edC10.src ≠ edC10.dst →
      loss_hamiltonian id gC10 = Except.error (PyError.keyError
        ("Edge " ++ edgeStr (edC10.src, edC10.dst) ++ " does not contain weight data")))) :=
  ⟨by decide, loss_hamiltonian_first_invalid_edge id gC10 edC10 (by decide)⟩

/-- C9: for every graph with distinct edges, `edges_to_wires` and
`wires_to_edges` are exact inverses: every edge maps to a wire that maps back
to it, and every wire index maps to an edge that maps back to it. -/
theorem edges_to_wires_wires_to_edges_inverse (g : Graph) (h : g.edgeList.Nodup) :
    (∀ e ∈ g.edgeList, ∃ w, dictLookup (edges_to_wires g) e = some w ∧
        dictLookup (wires_to_edges g) w = some e) ∧
    (∀ w, w < g.edgeList.length → ∃ e, dictLookup (wires_to_edges g) w = some e ∧
        dictLookup (edges_to_wires g) e = some w) := by
  have hnd1 : ((edges_to_wires g).map Prod.fst).Nodup := by
    rw [edges_to_wires_keys]
    exact h
  have hnd2 : ((wires_to_edges g).map Prod.fst).Nodup := by
    rw [wires_to_edges_eq_enum]
    exact List.nodup_enum_map_fst g.edgeList
  constructor
  · intro e he
    rcases List.mem_iff_getElem.mp he with ⟨i, hi, hei⟩
    have henum : (i, e) ∈ g.edgeList.enum := by
      rw [← hei]
      exact mem_enum_of_getElem g.edgeList i hi
    refine ⟨i, ?_, ?_⟩
    · exact dictLookup_eq_some_of_mem _ _ _ hnd1
        ((mem_edges_to_wires_iff g e i).mpr henum)
    · apply dictLookup_eq_some_of_mem _ _ _ hnd2
      rw [wires_to_edges_eq_enum]
      exact henum
  · intro w hw
    have henum : (w, g.edgeList[w]) ∈ g.edgeList.enum := mem_enum_of_getElem g.edgeList w hw
    refine ⟨g.edgeList[w], ?_, ?_⟩
    · apply dictLookup_eq_some_of_mem _ _ _ hnd2
      rw [wires_to_edges_eq_enum]
      exact henum
    · exact dictLookup_eq_some_of_mem _ _ _ hnd1
        ((mem_edges_to_wires_iff g g.edgeList[w] w).mpr henum)

/-- Witness for C9 at a concrete two-edge graph. -/
theorem edges_to_wires_wires_to_edges_inverse_witness :
    gC9.edgeList.Nodup ∧
    ((∀ e ∈ gC9.edgeList, ∃ w, dictLookup (edges_to_wires gC9) e = some w ∧
        dictLookup (wires_to_edges gC9) w = some e) ∧
    (∀ w, w < gC9.edgeList.length → ∃ e, dictLookup (wires_to_edges gC9) w = some e ∧
        dictLookup (edges_to_wires gC9) e = some w)) :=
  ⟨by decide, edges_to_wires_wires_to_edges_inverse gC9 (by decide)⟩

/-! ## Claim theorems: differentiation-method selection -/

/-- C1 (amended): when the device declares a passthrough interface compatible
with the requested interface and also a native jacobian, diff_method "best"
resolves to the base tape kind with method "backprop" — never "device" — and
the interface component of the returned triple is none (the backprop
selection drops the interface binding), not the declared passthrough
interface. -/
theorem best_method_backprop_priority (dev : Capabilities) (pi : String)
    (h1 : dev.passthru = some pi) (h2 : dev.provides_jacobian = true) :
    getBestMethod dev (some pi) =
      Except.ok ⟨TapeKind.quantumTape, none, "backprop", []⟩ := by
  unfold getBestMethod validateBackpropMethod
  rw [h1]
  simp

/-- Counterexample to C1 as stated: for a device declaring passthrough "tf"
and a native jacobian, and requested interface "tf", "best" selects backprop
but the interface component of the result is none, not the device-declared
passthrough interface. -/
theorem best_method_interface_counterexample :
    devC1.passthru = some "tf" ∧ devC1.provides_jacobian = true ∧
    getBestMethod devC1 (some "tf") =
      Except.ok ⟨TapeKind.quantumTape, none, "backprop", []⟩ ∧
    (∀ s : Selected, getBestMethod devC1 (some "tf") = Except.ok s →
      s.interface ≠ devC1.passthru) := by
  refine ⟨rfl, rfl, rfl, ?_⟩
  intro s hs
  rw [show getBestMethod devC1 (some "tf") =
    Except.ok ⟨TapeKind.quantumTape, none, "backprop", []⟩ from rfl] at hs
  injection hs with hs'
  rw [← hs']
  simp [devC1]

/-- Witness for the amended C1 at a concrete capability set. -/
theorem best_method_backprop_priority_witness :
    devC1.passthru = some "tf" ∧ devC1.provides_jacobian = true ∧
    getBestMethod devC1 (some "tf") =
      Except.ok ⟨TapeKind.quantumTape, none, "backprop", []⟩ :=
  ⟨rfl, rfl, best_method_backprop_priority devC1 "tf" rfl rfl⟩

/-- When the device declares no passthrough interface compatible with the
requested one, the backprop validation fails with a QuantumFunctionError. -/
theorem validateBackpropMethod_err (dev : Capabilities) (interface : Option String)
    (h : ∀ s, dev.passthru = some s → interface ≠ some s) :
    ∃ e, validateBackpropMethod dev interface = Except.error e := by
  unfold validateBackpropMethod
  rcases hp : dev.passthru with _ | s
  · exact ⟨_, rfl⟩
  · simp only [if_neg (h s hp)]
    exact ⟨_, rfl⟩

/-- C4: for a continuous-variable device with no compatible passthrough and no
native jacobian, diff_method "best" raises no error: it returns the base tape
kind, the requested interface and method "numeric", emitting the warning about
the unimplemented CV parameter-shift rule. -/
theorem best_method_cv_fallback (dev : Capabilities) (interface : Option String)
    (hbp : ∀ s, dev.passthru = some s → interface ≠ some s)
    (hjac : dev.provides_jacobian = false)
    (hmodel : dev.model = "cv") :
    getBestMethod dev interface =
      Except.ok ⟨TapeKind.quantumTape, interface, "numeric",
        ["The CV parameter-shift rule not yet implemented; falling back to finite differences"]⟩ := by
  rcases validateBackpropMethod_err dev interface hbp with ⟨e, he⟩
  have hdev : validateDeviceMethod dev interface =
      Except.error ⟨"The device does not provide a native method for computing the jacobian"⟩ := by
    unfold validateDeviceMethod
    rw [hjac]
    simp
  have hps : getParameterShiftMethod dev interface =
      Except.ok ⟨TapeKind.quantumTape, interface, "numeric",
        ["The CV parameter-shift rule not yet implemented; falling back to finite differences"]⟩ := by
    unfold getParameterShiftMethod
    rw [hmodel]
    simp
  unfold getBestMethod
  rw [he, hdev, hps]

/-- Witness for C4 at a concrete continuous-variable capability set. -/
theorem best_method_cv_fallback_witness :
    (∀ s, devC4.passthru = some s → (some "autograd" : Option String) ≠ some s) ∧
    devC4.provides_jacobian = false ∧ devC4.model = "cv" ∧
    getBestMethod devC4 (some "autograd") =
      Except.ok ⟨TapeKind.quantumTape, some "autograd", "numeric",
        ["The CV parameter-shift rule not yet implemented; falling back to finite differences"]⟩ :=
  ⟨(fun s hs => nomatch hs), rfl, rfl,
    best_method_cv_fallback devC4 (some "autograd") (fun s hs => nomatch hs) rfl rfl⟩

/-- C5: every diff_method string outside the recognized set fails with a
QuantumFunctionError whose message names the unrecognized method, and never
resolves to any method. -/
theorem unknown_diff_method_error (dev : Capabilities) (interface : Option String)
    (dm : String)
    (h : dm ∉ ["best", "backprop", "device", "parameter-shift", "finite-diff"]) :
    getTapeAndMethod dev interface dm =
      Except.error ⟨"Differentiation method " ++ dm ++ " not recognized"⟩ ∧
    (∀ s, getTapeAndMethod dev interface dm ≠ Except.ok s) := by
  simp at h
  obtain ⟨h1, h2, h3, h4, h5⟩ := h
  unfold getTapeAndMethod
  rw [if_neg h1, if_neg h2, if_neg h3, if_neg h4, if_neg h5]
  exact ⟨rfl, fun s hs => Except.noConfusion hs⟩

/-- Witness for C5 at the diff_method "hello" from the test suite. -/
theorem unknown_diff_method_error_witness :
    "hello" ∉ ["best", "backprop", "device", "parameter-shift", "finite-diff"] ∧
    (getTapeAndMethod devC5 (some "autograd") "hello" =
      Except.error ⟨"Differentiation method hello not recognized"⟩ ∧
    (∀ s, getTapeAndMethod devC5 (some "autograd") "hello" ≠ Except.ok s)) :=
  ⟨by decide, unknown_diff_method_error devC5 (some "autograd") "hello" (by decide)⟩

/-! ## Claim theorems: tape recording and QNode calls -/

/-- Recording succeeds exactly when every returned value is a measurement,
the declared order matches the queued order, and the resulting tape holds the
queued operations and measurements with the supplied id. -/
theorem recordTape_ok_iff (cr : ConstructionResult) (tid : Nat) (t : Tape) :
    recordTape cr tid = Except.ok t ↔
      (cr.returned.all ReturnedValue.isMeas = true ∧
        returnedMeasurements cr = cr.queuedMeasurements ∧
        t = ⟨tid, cr.queuedOps, cr.queuedMeasurements⟩) := by
  unfold recordTape
  by_cases h1 : cr.returned.all ReturnedValue.isMeas = true
  · rw [if_pos h1]
    by_cases h2 : returnedMeasurements cr = cr.queuedMeasurements
    · rw [if_pos h2]
      constructor
      · intro h
        injection h with h
        exact ⟨h1, h2, h.symm⟩
      · rintro ⟨_, _, rfl⟩
        rfl
    · rw [if_neg h2]
      constructor
      · intro h
        exact Except.noConfusion h
      · rintro ⟨_, hc, _⟩
        exact absurd hc h2
  · rw [if_neg h1]
    constructor
    · intro h
      exact Except.noConfusion h
    · rintro ⟨hc, _, _⟩
      exact absurd hc h1

/-- C2: when a construction function declares only measurements but in an
order that is a permutation of, yet different from, the queued order,
recording fails with the ordering error; when the declared order equals the
queued order, recording succeeds and the tape's measurements equal the
declared sequence in that exact order. -/
theorem record_measurement_order (cr : ConstructionResult) (tid : Nat)
    (ms : List Measurement)
    (hall : cr.returned.all ReturnedValue.isMeas = true)
    (hms : returnedMeasurements cr = ms) :
    (ms.Perm cr.queuedMeasurements → ms ≠ cr.queuedMeasurements →
      recordTape cr tid =
        Except.error ⟨"All measurements must be returned in the order they are measured"⟩) ∧
    (ms = cr.queuedMeasurements →
      ∃ t, recordTape cr tid = Except.ok t ∧ t.measurements = ms ∧
        t.operations = cr.queuedOps ∧ t.tid = tid) := by
  unfold recordTape
  rw [if_pos hall, hms]
  constructor
  · intro _ hne
    rw [if_neg hne]
  · intro heq
    rw [if_pos heq]
    exact ⟨_, rfl, heq.symm, rfl, rfl⟩

/-- Witness for C2 at a construction outcome that queues [m1, m2] but
declares [m2, m1]: recording fails with the ordering error. -/
theorem record_measurement_order_witness :
    crC2.returned.all ReturnedValue.isMeas = true ∧
    returnedMeasurements crC2 = [m2W, m1W] ∧
    (([m2W, m1W].Perm crC2.queuedMeasurements → [m2W, m1W] ≠ crC2.queuedMeasurements →
      recordTape crC2 0 =
        Except.error ⟨"All measurements must be returned in the order they are measured"⟩) ∧
    ([m2W, m1W] = crC2.queuedMeasurements →
      ∃ t, recordTape crC2 0 = Except.ok t ∧ t.measurements = [m2W, m1W] ∧
        t.operations = crC2.queuedOps ∧ t.tid = 0)) ∧
    recordTape crC2 0 =
      Except.error ⟨"All measurements must be returned in the order they are measured"⟩ :=
  ⟨rfl, rfl, record_measurement_order crC2 0 [m2W, m1W] rfl rfl,
    (record_measurement_order crC2 0 [m2W, m1W] rfl rfl).1 (by decide) (by decide)⟩

/-- C3: after a successful QNode call, a second call with the same arguments
succeeds, stores a tape distinct from the first one (different freshness id:
the first tape is replaced, never reused) with identical structure, and
returns the same execution result. -/
theorem qnode_call_fresh_tape {Args : Type} (func : Args → ConstructionResult)
    (dev : Device) (st : QNodeState) (args : Args) (r₁ : List ℚ) (st₁ : QNodeState)
    (h : qnodeCall func dev st args = Except.ok (r₁, st₁)) :
    ∃ r₂ st₂ t₁ t₂,
      qnodeCall func dev st₁ args = Except.ok (r₂, st₂) ∧
      st₁.qtape = some t₁ ∧ st₂.qtape = some t₂ ∧
      t₁.tid ≠ t₂.tid ∧
      t₁.operations = t₂.operations ∧ t₁.measurements = t₂.measurements ∧
      r₂ = r₁ := by
  unfold qnodeCall at h ⊢
  rcases hrec : recordTape (func args) st.counter with e | t
  · rw [hrec] at h
    exact Except.noConfusion h
  · rw [hrec] at h
    injection h with hpair
    rw [Prod.mk.injEq] at hpair
    obtain ⟨hr, hst⟩ := hpair
    obtain ⟨hall, hfm, ht⟩ := (recordTape_ok_iff _ _ _).mp hrec
    have hrec2 : recordTape (func args) st₁.counter =
        Except.ok ⟨st₁.counter, (func args).queuedOps, (func args).queuedMeasurements⟩ :=
      (recordTape_ok_iff _ _ _).mpr ⟨hall, hfm, rfl⟩
    rw [hrec2]
    refine ⟨_, _, t, ⟨st₁.counter, (func args).queuedOps, (func args).queuedMeasurements⟩,
      rfl, ?_, rfl, ?_, ?_, ?_, ?_⟩
    · rw [← hst]
    · rw [ht, ← hst]
      simp
    · rw [ht]
    · rw [ht]
    · rw [← hr, ht]

/-- Witness for C3: two successive calls of a concrete pure QNode. -/
theorem qnode_call_fresh_tape_witness :
    qnodeCall funcC3 devFnC3 ⟨0, none⟩ () =
      Except.ok ([1], ⟨1, some ⟨0, crC3.queuedOps, crC3.queuedMeasurements⟩⟩) ∧
    (∃ r₂ st₂ t₁ t₂,
      qnodeCall funcC3 devFnC3 ⟨1, some ⟨0, crC3.queuedOps, crC3.queuedMeasurements⟩⟩ () =
        Except.ok (r₂, st₂) ∧
      (⟨1, some ⟨0, crC3.queuedOps, crC3.queuedMeasurements⟩⟩ : QNodeState).qtape = some t₁ ∧
      st₂.qtape = some t₂ ∧
      t₁.tid ≠ t₂.tid ∧
      t₁.operations = t₂.operations ∧ t₁.measurements = t₂.measurements ∧
      r₂ = [1]) :=
  ⟨rfl, qnode_call_fresh_tape funcC3 devFnC3 ⟨0, none⟩ () [1]
    ⟨1, some ⟨0, crC3.queuedOps, crC3.queuedMeasurements⟩⟩ rfl⟩

/-- C6: when the declared return of the construction function is not
exclusively measurements, calling the QNode fails with the
QuantumFunctionError about returning measured observables. -/
theorem qnode_call_non_measurement_error {Args : Type} (func : Args → ConstructionResult)
    (dev : Device) (st : QNodeState) (args : Args)
    (h : ((func args).returned.any (fun v => !v.isMeas)) = true) :
    qnodeCall func dev st args = Except.error
      ⟨"A quantum function must return either a single measured observable or a nonempty sequence of measured observables"⟩ := by
  have hall : ¬ ((func args).returned.all ReturnedValue.isMeas = true) := by
    intro hall
    rcases List.any_eq_true.mp h with ⟨v, hv, hnv⟩
    have hm := List.all_eq_true.mp hall v hv
    rw [hm] at hnv
    simp at hnv
  unfold qnodeCall recordTape
  rw [if_neg hall]

/-- Witness for C6: a construction function declaring the plain number 5. -/
theorem qnode_call_non_measurement_error_witness :
    ((funcC6 ()).returned.any (fun v => !v.isMeas)) = true ∧
    qnodeCall funcC6 devFnC6 ⟨0, none⟩ () = Except.error
      ⟨"A quantum function must return either a single measured observable or a nonempty sequence of measured observables"⟩ :=
  ⟨by decide, qnode_call_non_measurement_error funcC6 devFnC6 ⟨0, none⟩ () (by decide)⟩
